import Mathlib

/-!
Shallow embedding of the shopping-list core: the sustainability scorer,
the budget optimizer (greedy + dynamic-programming knapsack) and the
smart substitution matcher.  JS numbers are modelled as `ℚ`, optional
object fields as `Option`, and JS truthiness of a numeric/string field
as "present and nonzero / nonempty".
-/

/-- JS `Math.round`: round half towards positive infinity. -/
def jsRound (q : ℚ) : ℤ := ⌊q + 1/2⌋

/-- `Math.round(x * 100) / 100`: rounding to two decimals used throughout. -/
def round2 (q : ℚ) : ℚ := (jsRound (q * 100) : ℚ) / 100

/-- JS `String.prototype.includes`: substring containment. -/
def strIncludes (s pat : String) : Bool :=
  (s.toList.tails).any (fun t => pat.toList.isPrefixOf t)

/-- First-occurrence deduplication, as `[...new Set(xs)]` in JS. -/
def dedupFirst (l : List String) : List String :=
  l.foldl (fun acc a => if a ∈ acc then acc else acc ++ [a]) []

/-- A stable insertion into a sorted list: the new (later) element goes after
every existing element `b` with `le b a`.  Used to model the stable
`Array.prototype.sort`. -/
def insertLe {α : Type} (le : α → α → Bool) (a : α) : List α → List α
  | [] => [a]
  | b :: bs => if le b a then b :: insertLe le a bs else a :: b :: bs

/-- Stable sort by a boolean `le`, modelling `Array.prototype.sort(cmp)`
(with `le a b = (cmp a b ≤ 0)`). -/
def stableSort {α : Type} (le : α → α → Bool) (l : List α) : List α :=
  l.foldl (fun acc a => insertLe le a acc) []

/-- The `openfoodfacts_data` metadata bag.  In the source it may also arrive as
a JSON string which is parsed first; it is modelled here as already parsed. -/
structure OFFData where
  packaging : Option String := none
  origins : Option String := none
  labels_tags : Option (List String) := none
  categories_tags : Option (List String) := none
  additives : Option (List String) := none
  ingredients_text : Option String := none
deriving DecidableEq

structure ScoreBreakdown where
  economic : Option ℚ := none
  environmental : Option ℚ := none
  social : Option ℚ := none
deriving DecidableEq

structure SustScore where
  total : Option ℚ := none
  breakdown : Option ScoreBreakdown := none
deriving DecidableEq

/-- A product record as consumed by the optimizer and the matcher. -/
structure Product where
  id : ℤ := 0
  barcode : Option String := none
  name : Option String := none
  category : Option String := none
  price : Option ℚ := none
  quantity : Option ℚ := none
  currency : Option String := none
  nutrition_grade : Option String := none
  eco_score : Option String := none
  carbon_footprint : Option ℚ := none
  openfoodfacts_data : Option OFFData := none
  sustainability_score : Option SustScore := none
deriving DecidableEq

structure Weights where
  economic : ℚ
  environmental : ℚ
  social : ℚ
deriving DecidableEq

def defaultWeights : Weights := ⟨4/10, 4/10, 2/10⟩

/-- `Math.max(0, Math.min(1, x))`. -/
def clamp01 (q : ℚ) : ℚ := max 0 (min 1 q)

/-- Economic sub-score: neutral 0.5 without a (truthy) price, otherwise
`1 - min(price/50, 1)` plus a 0.1 nutrition bonus, clamped. -/
def calculateEconomicScore (product : Product) : ℚ :=
  match product.price with
  | none => 1/2
  | some price =>
    if price = 0 then 1/2
    else
      let normalizedPrice := min (price / 50) 1
      let score := 1 - normalizedPrice
      let score :=
        if product.nutrition_grade = some "A" ∨ product.nutrition_grade = some "B" then
          score + 1/10
        else score
      clamp01 score

def ecoScoreMap (g : String) : Option ℚ :=
  if g = "A" then some 1
  else if g = "B" then some (8/10)
  else if g = "C" then some (6/10)
  else if g = "D" then some (4/10)
  else if g = "E" then some (2/10)
  else none

/-- Environmental sub-score: eco-label base, carbon blend, packaging and
origin bonuses, clamped. -/
def calculateEnvironmentalScore (product : Product) : ℚ :=
  let score : ℚ := 1/2
  let score :=
    match product.eco_score with
    | none => score
    | some g => if g = "" then score else (ecoScoreMap g).getD (1/2)
  let score :=
    match product.carbon_footprint with
    | none => score
    | some c =>
      if c = 0 then score
      else
        let carbonScore := max 0 (1 - c/5)
        score * (7/10) + carbonScore * (3/10)
  let packaging := ((product.openfoodfacts_data.bind (·.packaging)).getD "").toLower
  let score :=
    if strIncludes packaging "reciclable" ∨ strIncludes packaging "biodegradable" then
      score + 1/10
    else score
  let origins := (product.openfoodfacts_data.bind (·.origins)).getD ""
  let score :=
    if origins ≠ "" ∧ ¬ (strIncludes origins.toLower "import") then score + 1/20
    else score
  clamp01 score

/-- Social sub-score: label bonuses, traceable-origin bonus, additive
penalty, clamped. -/
def calculateSocialScore (product : Product) : ℚ :=
  let labels := (product.openfoodfacts_data.bind (·.labels_tags)).getD []
  let labelText := (String.intercalate " " labels).toLower
  let score : ℚ := 1/2
  let score :=
    if strIncludes labelText "fair trade" ∨ strIncludes labelText "comercio justo" then
      score + 3/10
    else score
  let score :=
    if strIncludes labelText "organic" ∨ strIncludes labelText "bio" ∨
        strIncludes labelText "orgánico" then
      score + 2/10
    else score
  let score :=
    if strIncludes labelText "rainforest" ∨ strIncludes labelText "rainforest alliance" then
      score + 1/10
    else score
  let origins := (product.openfoodfacts_data.bind (·.origins)).getD ""
  let score := if origins ≠ "" then score + 1/10 else score
  let additives := (product.openfoodfacts_data.bind (·.additives)).getD []
  let score := if additives.length > 5 then score - 1/10 else score
  clamp01 score

structure SustainabilityResult where
  total : ℚ
  economic : ℚ
  environmental : ℚ
  social : ℚ
  weights : Weights
deriving DecidableEq

/-- The scorer: weighted sum of the three sub-scores, every emitted number
rounded to two decimals, weights echoed back. -/
def calculateSustainabilityScore (product : Product)
    (weights : Weights := defaultWeights) : SustainabilityResult :=
  let economicScore := calculateEconomicScore product
  let environmentalScore := calculateEnvironmentalScore product
  let socialScore := calculateSocialScore product
  let totalScore := economicScore * weights.economic +
    environmentalScore * weights.environmental + socialScore * weights.social
  ⟨round2 totalScore, round2 economicScore, round2 environmentalScore,
    round2 socialScore, weights⟩

/-- Accessor `p.price` with JS `|| 0` semantics for the arithmetic sites. -/
def pPrice (p : Product) : ℚ := p.price.getD 0

/-- Accessor `p.quantity || 1`: absent or zero quantity defaults to 1. -/
def pQty (p : Product) : ℚ :=
  match p.quantity with
  | none => 1
  | some q => if q = 0 then 1 else q

/-- Accessor `p.sustainability_score?.total || 0`. -/
def pTotal (p : Product) : ℚ := (p.sustainability_score.bind (·.total)).getD 0

/-- Accessor `parseFloat(p.carbon_footprint || 0)`. -/
def pCarbon (p : Product) : ℚ := p.carbon_footprint.getD 0

/-- An item's cost `p.price * (p.quantity || 1)`. -/
def pCost (p : Product) : ℚ := pPrice p * pQty p

/-- The optimizer's eligibility filter: truthy price, a score object, and a
defined `total`. -/
def isValidProduct (p : Product) : Bool :=
  (match p.price with | none => false | some v => v ≠ 0) &&
  p.sustainability_score.isSome &&
  (p.sustainability_score.bind (·.total)).isSome

structure OptimizeOptions where
  minScore : ℚ := 0
  prioritizeSustainability : Bool := true
  allowPartial : Bool := false
deriving DecidableEq

/-- A product together with its `score/price` ratio (the `{...product, ratio}`
spread). -/
structure RatedProduct where
  product : Product
  ratio : ℚ
deriving DecidableEq

structure StrategyResult where
  selected : List RatedProduct
  message : String
deriving DecidableEq

/-- The greedy acceptance loop: accept an item when its cost fits the
remaining budget and its score meets `minScore`. -/
def greedySelect : List RatedProduct → ℚ → ℚ → List RatedProduct
  | [], _, _ => []
  | p :: rest, remainingBudget, minScore =>
    let cost := pCost p.product
    let score := pTotal p.product
    if cost ≤ remainingBudget ∧ minScore ≤ score then
      p :: greedySelect rest (remainingBudget - cost) minScore
    else
      greedySelect rest remainingBudget minScore

/-- Greedy strategy: sort by ratio descending (stable) and sweep once. -/
def greedyOptimization (products : List RatedProduct) (maxBudget minScore : ℚ) :
    StrategyResult :=
  let sorted := stableSort (fun a b => decide (b.ratio ≤ a.ratio)) products
  let selected := greedySelect sorted maxBudget minScore
  let n := selected.length
  ⟨selected, s!"Seleccionados {n} productos usando algoritmo Greedy"⟩

/-- `Math.floor(price * quantity * 100)`: an item's cost in integer cents. -/
def costCents (p : Product) : ℤ := ⌊pCost p * 100⌋

/-- The DP table value `dp[i][w]`: the list holds the first `i` items in
reverse order, `w` is the remaining budget in cents. -/
def dpBest : List RatedProduct → ℤ → ℚ
  | [], _ => 0
  | p :: prev, w =>
    let c := costCents p.product
    let score := pTotal p.product
    let best := dpBest prev w
    if c ≤ w ∧ best < dpBest prev (w - c) + score then dpBest prev (w - c) + score
    else best

/-- Walking the DP choice table backwards from item `n` at width `w`,
rebuilding the selection in original order. -/
def dpSelect : List RatedProduct → ℤ → List RatedProduct
  | [], _ => []
  | p :: prev, w =>
    let c := costCents p.product
    let score := pTotal p.product
    if c ≤ w ∧ dpBest prev w < dpBest prev (w - c) + score then
      dpSelect prev (w - c) ++ [p]
    else
      dpSelect prev w

/-- Exact 0/1 knapsack over a budget discretized to cents. -/
def dynamicProgrammingOptimization (products : List RatedProduct)
    (maxBudget minScore : ℚ) : StrategyResult :=
  let validProducts := products.filter (fun p => decide (minScore ≤ pTotal p.product))
  if validProducts.isEmpty then
    ⟨[], "Ningún producto cumple el score mínimo requerido"⟩
  else
    let budgetCents : ℤ := ⌊maxBudget * 100⌋
    let selected := dpSelect validProducts.reverse budgetCents
    let n := selected.length
    ⟨selected, s!"Seleccionados {n} productos usando Programación Dinámica"⟩

structure OptimizationResult where
  selected : List RatedProduct
  totalCost : ℚ
  totalScore : ℚ
  totalCarbon : ℚ
  savingsEconomic : ℚ
  savingsCarbon : ℚ
  savingsPercentage : Option ℚ
  budgetUsed : Option ℚ
  message : String
deriving DecidableEq

def costSum (l : List RatedProduct) : ℚ := (l.map (fun p => pCost p.product)).sum

def scoreSum (l : List RatedProduct) : ℚ :=
  (l.map (fun p => pTotal p.product * pQty p.product)).sum

def carbonSum (l : List RatedProduct) : ℚ :=
  (l.map (fun p => pCarbon p.product * pQty p.product)).sum

/-- The knapsack entry point `optimizeShoppingList(products, maxBudget,
options)`.  A missing price contributes 0 (not JS `NaN`) to the
original-cost statistics. -/
def optimizeShoppingList (products : List Product) (maxBudget : ℚ)
    (options : OptimizeOptions := {}) : OptimizationResult :=
  let validProducts := products.filter isValidProduct
  if validProducts.isEmpty then
    ⟨[], 0, 0, 0, 0, 0, none, none, "No hay productos válidos para optimizar"⟩
  else
    let productsWithRatio := validProducts.map (fun p => RatedProduct.mk p (pTotal p / pPrice p))
    let result :=
      if options.prioritizeSustainability then
        greedyOptimization productsWithRatio maxBudget options.minScore
      else
        dynamicProgrammingOptimization productsWithRatio maxBudget options.minScore
    let totalCost := costSum result.selected
    let totalScore := scoreSum result.selected
    let totalCarbon := carbonSum result.selected
    let originalCost := (products.map (fun p => pPrice p * pQty p)).sum
    let originalCarbon := (products.map (fun p => pCarbon p * pQty p)).sum
    ⟨result.selected, round2 totalCost, round2 totalScore, round2 totalCarbon,
      max 0 (round2 (originalCost - totalCost)),
      max 0 (round2 (originalCarbon - totalCarbon)),
      some (if 0 < originalCost then ((jsRound ((originalCost - totalCost) / originalCost * 100) : ℚ)) else 0),
      some (round2 (totalCost / maxBudget)),
      if result.message = "" then "Lista optimizada exitosamente" else result.message⟩

/-- Strip a leading `en:`/`es:` locale prefix (applied in sequence, as the
two `replace(/^…/, '')` calls). -/
def stripLocale (s : String) : String :=
  let s := if s.startsWith "en:" then s.drop 3 else s
  if s.startsWith "es:" then s.drop 3 else s

/-- `extractCategories`: comma-split `category` plus locale-stripped
`categories_tags`, lower-cased, first-occurrence deduplicated. -/
def extractCategories (product : Product) : List String :=
  let fromCategory :=
    match product.category with
    | none => []
    | some c => if c = "" then [] else (c.toLower.splitOn ",").map (fun s => s.trim)
  let fromTags :=
    match product.openfoodfacts_data with
    | none => []
    | some d => (d.categories_tags.getD []).map (fun c => stripLocale c.toLower)
  dedupFirst (fromCategory ++ fromTags)

/-- The fixed stoplist of overly generic category labels. -/
def genericCategories : List String :=
  ["alimentos y bebidas de origen vegetal",
   "alimentos de origen vegetal",
   "alimentos",
   "bebidas",
   "desayunos",
   "specific products",
   "products for specific diets",
   "en:specific products",
   "en:products for specific diets"]

/-- Categories that are neither generic nor too short. -/
def significantCats (cats : List String) : List String :=
  cats.filter (fun cat =>
    !(genericCategories.any (fun gen => strIncludes cat gen)) && cat.length > 3)

/-- `extractKeywords`: words longer than 3 characters split on
whitespace/comma/hyphen, lower-cased, deduplicated. -/
def extractKeywords (cats : List String) : List String :=
  dedupFirst ((cats.flatMap (fun cat =>
    (cat.split (fun c => c.isWhitespace || c = ',' || c = '-')).filter
      (fun w => w.length > 3))).map (fun w => w.toLower))

/-- Bidirectional substring overlap between two category/keyword lists. -/
def catOverlap (xs ys : List String) : Bool :=
  xs.any (fun a => ys.any (fun b => strIncludes b a || strIncludes a b))

/-- Words of a product name longer than 3 characters. -/
def nameWords (n : Option String) : List String :=
  ((n.getD "").toLower.split (fun c => c.isWhitespace)).filter (fun w => w.length > 3)

/-- The fixed table of mutually incompatible dairy category groups:
`(categories, incompatibleWith)`. -/
def incompatibleCategoryGroups : List (List String × List String) :=
  [(["leche", "leches", "milk", "milks", "leche semidesnatada", "leche semidescremada",
     "leche entera", "leche desnatada", "leche descremada", "whole-milks",
     "semi-skimmed milk", "skimmed milk", "leche-uht", "leche-de-vaca", "leche sin lactosa"],
    ["nata", "crema", "cream", "queso", "cheese", "mantequilla", "butter",
     "dairy-spread", "grasas de la leche", "grasas animales"]),
   (["nata", "crema", "cream"],
    ["leche", "leches", "milk", "milks", "queso", "cheese", "mantequilla", "butter"]),
   (["queso", "cheese", "queso rallado"],
    ["leche", "leches", "milk", "nata", "crema", "mantequilla", "butter"]),
   (["mantequilla", "butter", "dairy-spread", "grasas de la leche"],
    ["leche", "leches", "milk", "nata", "crema", "queso", "cheese"])]

/-- The category bonus: up to 0.15 for shared significant categories plus 0.1
when the most specific categories match. -/
def categoryBonusOf (pSig cSig : List String) : ℚ :=
  if !pSig.isEmpty && !cSig.isEmpty then
    let shared := pSig.filter (fun cat =>
      cSig.any (fun candCat => strIncludes candCat cat || strIncludes cat candCat))
    if !shared.isEmpty then
      let base := min (15/100 : ℚ) ((shared.length : ℚ) * (5/100))
      let productMostSpecific := pSig.getLast?.getD ""
      let candidateMostSpecific := cSig.getLast?.getD ""
      if strIncludes productMostSpecific candidateMostSpecific ||
          strIncludes candidateMostSpecific productMostSpecific then
        base + 1/10
      else base
    else 0
  else 0

structure DietaryRestrictions where
  vegan : Bool := false
  glutenFree : Bool := false
deriving DecidableEq

structure SubstituteCriteria where
  minScoreImprovement : ℚ := 1/10
  sameCategory : Bool := true
  maxResults : ℕ := 5
  maxPriceIncrease : ℚ := 1/5
  dietaryRestrictions : Option DietaryRestrictions := none
deriving DecidableEq

/-- The `hasSharedCategories` relevance signal of the score-threshold step. -/
def hasSharedCatsOf (pCats cCats pSig cSig pKw cKw : List String) : Bool :=
  (!pSig.isEmpty && !cSig.isEmpty && catOverlap pSig cSig) ||
  (!pCats.isEmpty && !cCats.isEmpty && catOverlap pCats cCats) ||
  (!pKw.isEmpty && !cKw.isEmpty && catOverlap pKw cKw)

/-- JS truthy currency with fallback: `x.currency || dflt`. -/
def currencyOr (c : Option String) (dflt : String) : String :=
  match c with
  | none => dflt
  | some s => if s = "" then dflt else s

/-- Filter step 1, identity exclusion: same id, same barcode
(`undefined === undefined` holds for two absent barcodes), or identical
case-insensitive trimmed name. -/
def identRejectOf (product candidate : Product) : Bool :=
  candidate.id = product.id || candidate.barcode = product.barcode ||
    ((candidate.name.getD "").toLower).trim = ((product.name.getD "").toLower).trim

/-- Filter step 2, category relevance (only with `sameCategory`): any of the
four signals or the shared milk-keyword fallback suffices. -/
def relevanceOkOf (product : Product) (criteria : SubstituteCriteria)
    (candidate : Product) : Bool :=
  if criteria.sameCategory then
    let productCategories := extractCategories product
    let candidateCategories := extractCategories candidate
    let allProductCats := productCategories.filter (fun c => c.length > 2)
    let allCandidateCats := candidateCategories.filter (fun c => c.length > 2)
    let hasBasicMatch := !allProductCats.isEmpty && !allCandidateCats.isEmpty &&
      catOverlap allProductCats allCandidateCats
    let productKeywords := extractKeywords productCategories
    let candidateKeywords := extractKeywords candidateCategories
    let hasKeywordMatch := !productKeywords.isEmpty && !candidateKeywords.isEmpty &&
      catOverlap productKeywords candidateKeywords
    let productSignificantCats := significantCats productCategories
    let candidateSignificantCats := significantCats candidateCategories
    let hasSignificantMatch := !productSignificantCats.isEmpty &&
      !candidateSignificantCats.isEmpty &&
      catOverlap productSignificantCats candidateSignificantCats
    let productNameWords := nameWords product.name
    let candidateNameWords := nameWords candidate.name
    let hasNameMatch := !productNameWords.isEmpty && !candidateNameWords.isEmpty &&
      productNameWords.any (fun w => candidateNameWords.contains w)
    let productHasLeche := strIncludes (product.name.getD "").toLower "leche" ||
      strIncludes (product.name.getD "").toLower "milk"
    let candidateHasLeche := strIncludes (candidate.name.getD "").toLower "leche" ||
      strIncludes (candidate.name.getD "").toLower "milk"
    hasBasicMatch || hasKeywordMatch || hasSignificantMatch || hasNameMatch ||
      (productHasLeche && candidateHasLeche)
  else true

/-- Filter step 3, the dairy incompatibility veto. -/
def incompatRejectOf (product candidate : Product) : Bool :=
  let productSignificantCats := significantCats (extractCategories product)
  let candidateSignificantCats := significantCats (extractCategories candidate)
  incompatibleCategoryGroups.any (fun group =>
    (group.1.any (fun cat => productSignificantCats.any (fun pCat =>
      strIncludes pCat cat || strIncludes cat pCat))) &&
    (group.2.any (fun incat => candidateSignificantCats.any (fun cCat =>
      strIncludes cCat incat || strIncludes incat cCat))))

/-- Filter step 4, the adaptive score-improvement threshold: tolerance 0.05
below the original (on the bonus-adjusted score) with a shared category
signal, 0.03 with only a name-prefix similarity, and a strict
`minScoreImprovement` improvement otherwise. -/
def scoreOkOf (product : Product) (criteria : SubstituteCriteria)
    (candidate : Product) : Bool :=
  let currentScore := pTotal product
  let productCategories := extractCategories product
  let candidateCategories := extractCategories candidate
  let productSignificantCats := significantCats productCategories
  let candidateSignificantCats := significantCats candidateCategories
  let categoryBonus := categoryBonusOf productSignificantCats candidateSignificantCats
  let hasSharedCategories := hasSharedCatsOf productCategories candidateCategories
    productSignificantCats candidateSignificantCats
    (extractKeywords productCategories) (extractKeywords candidateCategories)
  let adjustedCandidateScore := pTotal candidate + categoryBonus
  let adjustedMinImprovement :=
    if hasSharedCategories then criteria.minScoreImprovement * (2/10)
    else if 0 < categoryBonus then criteria.minScoreImprovement * (5/10)
    else criteria.minScoreImprovement
  let requiredScore := currentScore + adjustedMinImprovement
  if hasSharedCategories then
    decide (currentScore - 5/100 ≤ adjustedCandidateScore)
  else
    let hasSimilarCategories := !productCategories.isEmpty &&
      !candidateCategories.isEmpty &&
      productCategories.any (fun cat => candidateCategories.any (fun candCat =>
        strIncludes candCat.toLower (cat.toLower.take 4) ||
        strIncludes cat.toLower (candCat.toLower.take 4)))
    if hasSimilarCategories then decide (currentScore - 3/100 ≤ adjustedCandidateScore)
    else decide (requiredScore < adjustedCandidateScore)

/-- Filter step 5, the price ceiling, only enforced when the currencies
match. -/
def priceRejectOf (product : Product) (criteria : SubstituteCriteria)
    (candidate : Product) : Bool :=
  let productCurrency := currencyOr product.currency "EUR"
  let candidateCurrency := currencyOr candidate.currency productCurrency
  candidateCurrency = productCurrency &&
    decide (pPrice product * (1 + criteria.maxPriceIncrease) < pPrice candidate)

/-- Filter step 6, the optional dietary filters. -/
def dietOkOf (criteria : SubstituteCriteria) (candidate : Product) : Bool :=
  match criteria.dietaryRestrictions with
  | none => true
  | some dr =>
    let labels := (String.intercalate " "
      ((candidate.openfoodfacts_data.bind (·.labels_tags)).getD [])).toLower
    let ingredients := ((candidate.openfoodfacts_data.bind (·.ingredients_text)).getD "").toLower
    let veganOk :=
      if dr.vegan then
        let isVeganLabel := strIncludes labels "vegan"
        let hasAnimalIngredients := strIncludes ingredients "leche" ||
          strIncludes ingredients "huevo" || strIncludes ingredients "miel" ||
          strIncludes ingredients "carne"
        isVeganLabel || !hasAnimalIngredients
      else true
    let glutenFreeOk :=
      if dr.glutenFree then
        let isGlutenFreeLabel := strIncludes labels "gluten-free" ||
          strIncludes labels "sin gluten"
        let hasGluten := strIncludes ingredients "trigo" ||
          strIncludes ingredients "cebada" || strIncludes ingredients "centeno"
        isGlutenFreeLabel || !hasGluten
      else true
    veganOk && glutenFreeOk

/-- The candidate filter of `findSmartSubstitutes`: the early-return chain of
the source, written as the conjunction of its six steps (the logging and
rejection-reason bookkeeping of the source have no observable effect and are
omitted). -/
def passesFilter (product : Product) (criteria : SubstituteCriteria)
    (candidate : Product) : Bool :=
  !(identRejectOf product candidate) &&
  relevanceOkOf product criteria candidate &&
  !(incompatRejectOf product candidate) &&
  scoreOkOf product criteria candidate &&
  !(priceRejectOf product criteria candidate) &&
  dietOkOf criteria candidate

/-- A surviving candidate annotated with per-dimension improvements
(`{...candidate, economicImprovement, ...}`). -/
structure ScoredCandidate where
  candidate : Product
  economicImprovement : ℚ
  environmentalImprovement : ℚ
  socialImprovement : ℚ
  priceDifference : ℚ
  economicScore : ℚ
  environmentalScore : ℚ
  socialScore : ℚ
deriving DecidableEq

/-- A result entry `{...candidate, recommendationType, recommendationLabel}`. -/
structure SubstituteEntry where
  candidate : ScoredCandidate
  recommendationType : String
  recommendationLabel : String
deriving DecidableEq

/-- `breakdown?.economic || 0`-style accessor. -/
def bdEconomic (p : Product) : ℚ :=
  ((p.sustainability_score.bind (·.breakdown)).bind (·.economic)).getD 0

def bdEnvironmental (p : Product) : ℚ :=
  ((p.sustainability_score.bind (·.breakdown)).bind (·.environmental)).getD 0

def bdSocial (p : Product) : ℚ :=
  ((p.sustainability_score.bind (·.breakdown)).bind (·.social)).getD 0

/-- Annotate a surviving candidate with improvement data relative to the
original product.  A missing candidate price contributes 0 (not JS `NaN`)
to `priceDifference`. -/
def mkScored (product candidate : Product) : ScoredCandidate :=
  ⟨candidate,
    bdEconomic candidate - bdEconomic product,
    bdEnvironmental candidate - bdEnvironmental product,
    bdSocial candidate - bdSocial product,
    pPrice candidate - pPrice product,
    bdEconomic candidate, bdEnvironmental candidate, bdSocial candidate⟩

def scTotal (c : ScoredCandidate) : ℚ := pTotal c.candidate

def scId (c : ScoredCandidate) : ℤ := c.candidate.id

def entryId (e : SubstituteEntry) : ℤ := e.candidate.candidate.id

def entryTotal (e : SubstituteEntry) : ℚ := pTotal e.candidate.candidate

/-- The best-economic comparator (return value of the JS comparator). -/
def cmpEconomic (currentScore productEconomic : ℚ) (a b : ScoredCandidate) : ℚ :=
  let aImprovesTotal := decide (currentScore ≤ scTotal a)
  let bImprovesTotal := decide (currentScore ≤ scTotal b)
  if aImprovesTotal && !bImprovesTotal then -1
  else if !aImprovesTotal && bImprovesTotal then 1
  else
    let aImproves := decide (productEconomic ≤ a.economicScore) || decide (a.priceDifference < 0)
    let bImproves := decide (productEconomic ≤ b.economicScore) || decide (b.priceDifference < 0)
    if aImproves && bImproves then
      if |a.economicScore - b.economicScore| < 5/100 then a.priceDifference - b.priceDifference
      else b.economicScore - a.economicScore
    else if aImproves && !bImproves then -1
    else if !aImproves && bImproves then 1
    else if |a.economicScore - b.economicScore| < 5/100 then a.priceDifference - b.priceDifference
    else b.economicScore - a.economicScore

/-- The best-environmental comparator. -/
def cmpEnvironmental (currentScore productEnvironmental : ℚ) (a b : ScoredCandidate) : ℚ :=
  let aImprovesTotal := decide (currentScore ≤ scTotal a)
  let bImprovesTotal := decide (currentScore ≤ scTotal b)
  if aImprovesTotal && !bImprovesTotal then -1
  else if !aImprovesTotal && bImprovesTotal then 1
  else
    let aImproves := decide (productEnvironmental ≤ a.environmentalScore)
    let bImproves := decide (productEnvironmental ≤ b.environmentalScore)
    if aImproves && bImproves then
      if |a.environmentalScore - b.environmentalScore| < 5/100 then
        a.priceDifference - b.priceDifference
      else b.environmentalScore - a.environmentalScore
    else if aImproves && !bImproves then -1
    else if !aImproves && bImproves then 1
    else if |a.environmentalScore - b.environmentalScore| < 5/100 then
      a.priceDifference - b.priceDifference
    else b.environmentalScore - a.environmentalScore

/-- The best-social comparator. -/
def cmpSocial (currentScore productSocial : ℚ) (a b : ScoredCandidate) : ℚ :=
  let aImprovesTotal := decide (currentScore ≤ scTotal a)
  let bImprovesTotal := decide (currentScore ≤ scTotal b)
  if aImprovesTotal && !bImprovesTotal then -1
  else if !aImprovesTotal && bImprovesTotal then 1
  else
    let aImproves := decide (productSocial ≤ a.socialScore)
    let bImproves := decide (productSocial ≤ b.socialScore)
    if aImproves && bImproves then
      if |a.socialScore - b.socialScore| < 5/100 then a.priceDifference - b.priceDifference
      else b.socialScore - a.socialScore
    else if aImproves && !bImproves then -1
    else if !aImproves && bImproves then 1
    else if |a.socialScore - b.socialScore| < 5/100 then a.priceDifference - b.priceDifference
    else b.socialScore - a.socialScore

/-- The backfill comparator: improvers of the total score first, then by
total descending. -/
def cmpTotal (currentScore : ℚ) (a b : ScoredCandidate) : ℚ :=
  let aTotal := scTotal a
  let bTotal := scTotal b
  if decide (currentScore ≤ aTotal) && decide (bTotal < currentScore) then -1
  else if decide (aTotal < currentScore) && decide (currentScore ≤ bTotal) then 1
  else bTotal - aTotal

/-- Lift a JS comparator to the boolean `le` used by the stable sort. -/
def leOfCmp {α : Type} (cmp : α → α → ℚ) (a b : α) : Bool := decide (cmp a b ≤ 0)

/-- The single-survivor branch: label the lone candidate with its strongest
dimension. -/
def singleResult (single : ScoredCandidate) : List SubstituteEntry :=
  if decide (single.environmentalScore ≤ single.economicScore) &&
      decide (single.socialScore ≤ single.economicScore) then
    [⟨single, "economic", "Mejor Opción Económica"⟩]
  else if decide (single.economicScore ≤ single.environmentalScore) &&
      decide (single.socialScore ≤ single.environmentalScore) then
    [⟨single, "environmental", "Mejor Opción Ambiental"⟩]
  else
    [⟨single, "social", "Mejor Opción Social"⟩]

/-- The three per-dimension slots, deduplicated by identifier in order. -/
def dimEntries (be bv bs : Option ScoredCandidate) : List SubstituteEntry :=
  let r1 : List SubstituteEntry :=
    match be with
    | some c => [⟨c, "economic", "Mejor Opción Económica"⟩]
    | none => []
  let r2 :=
    match bv with
    | some c =>
      if (r1.map entryId).contains (scId c) then r1
      else r1 ++ [⟨c, "environmental", "Mejor Opción Ambiental"⟩]
    | none => r1
  match bs with
  | some c =>
    if (r2.map entryId).contains (scId c) then r2
    else r2 ++ [⟨c, "social", "Mejor Opción Social"⟩]
  | none => r2

/-- The multi-survivor branch.  The three `.sort(...)` calls of the source
mutate the array in place, so each sort starts from the previous order, and
when `candidatesToUse` aliases `candidatesWithScores` (fewer than 3 valid
candidates) the backfill sees the final sorted order. -/
def multiResult (currentScore productEconomic productEnvironmental productSocial : ℚ)
    (maxResults : ℕ) (candidatesWithScores : List ScoredCandidate) :
    List SubstituteEntry :=
  let validCandidates := candidatesWithScores.filter
    (fun c => decide (currentScore - 5/100 ≤ scTotal c))
  let candidatesToUse :=
    if 3 ≤ validCandidates.length then validCandidates else candidatesWithScores
  let sorted1 := stableSort (leOfCmp (cmpEconomic currentScore productEconomic)) candidatesToUse
  let sorted2 := stableSort (leOfCmp (cmpEnvironmental currentScore productEnvironmental)) sorted1
  let sorted3 := stableSort (leOfCmp (cmpSocial currentScore productSocial)) sorted2
  let bestEconomic := sorted1.head?
  let bestEnvironmental := sorted2.head?
  let bestSocial := sorted3.head?
  let cwsAfter :=
    if 3 ≤ validCandidates.length then candidatesWithScores else sorted3
  let dims := dimEntries bestEconomic bestEnvironmental bestSocial
  if dims.length < maxResults then
    let addedIds := dims.map entryId
    let sortedByTotal := stableSort (leOfCmp (cmpTotal currentScore))
      (cwsAfter.filter (fun c =>
        !(addedIds.contains (scId c)) && decide (currentScore - 2/100 ≤ scTotal c)))
    dims ++ (sortedByTotal.take (maxResults - dims.length)).map
      (fun c => ⟨c, "balanced", "Mejor Opción Balanceada"⟩)
  else dims

/-- `findSmartSubstitutes(product, availableProducts, criteria)`. -/
def findSmartSubstitutes (product : Product) (availableProducts : List Product)
    (criteria : SubstituteCriteria := {}) : List SubstituteEntry :=
  let candidates := availableProducts.filter (passesFilter product criteria)
  let candidatesWithScores := candidates.map (mkScored product)
  match candidatesWithScores with
  | [single] => singleResult single
  | cws =>
    multiResult (pTotal product) (bdEconomic product) (bdEnvironmental product)
      (bdSocial product) criteria.maxResults cws

theorem clamp01_nonneg (q : ℚ) : 0 ≤ clamp01 q := le_max_left 0 _

theorem clamp01_le_one (q : ℚ) : clamp01 q ≤ 1 := max_le (by norm_num) (min_le_left 1 q)

theorem round2_nonneg {q : ℚ} (h : 0 ≤ q) : 0 ≤ round2 q := by
  unfold round2 jsRound
  have h1 : (0:ℤ) ≤ ⌊q * 100 + 1/2⌋ := Int.le_floor.mpr (by push_cast; nlinarith)
  have h2 : (0:ℚ) ≤ (⌊q * 100 + 1/2⌋ : ℚ) := by exact_mod_cast h1
  positivity

theorem round2_le_one {q : ℚ} (h : q ≤ 1) : round2 q ≤ 1 := by
  unfold round2 jsRound
  rw [div_le_one (by norm_num)]
  have h1 : ⌊q * 100 + 1/2⌋ < 101 := Int.floor_lt.mpr (by push_cast; nlinarith)
  have h2 : ⌊q * 100 + 1/2⌋ ≤ 100 := by omega
  exact_mod_cast h2

theorem round2_eq_of_cents {q : ℚ} {z : ℤ} (h : q * 100 = z) : round2 q = q := by
  unfold round2 jsRound
  rw [h]
  have h0 : ⌊(1/2 : ℚ)⌋ = 0 := by
    apply Int.floor_eq_zero_iff.mpr
    constructor <;> norm_num
  have h1 : ⌊(z : ℚ) + 1/2⌋ = z := by
    rw [add_comm, Int.floor_add_int, h0, zero_add]
  rw [h1]
  have h100 : (100 : ℚ) ≠ 0 := by norm_num
  field_simp
  linarith

theorem jsRound_lt {a b : ℚ} (h : a + 1 ≤ b) : jsRound a < jsRound b := by
  unfold jsRound
  have h1 : ⌊a + 1/2 + 1⌋ ≤ ⌊b + 1/2⌋ := Int.floor_le_floor (by linarith)
  rw [Int.floor_add_one] at h1
  omega

theorem insertLe_perm {α : Type} (le : α → α → Bool) (a : α) (l : List α) :
    List.Perm (insertLe le a l) (a :: l) := by
  induction l with
  | nil => exact List.Perm.refl _
  | cons b bs ih =>
    rw [insertLe]
    split
    · exact (ih.cons b).trans (List.Perm.swap a b bs)
    · exact List.Perm.refl _

theorem foldl_insertLe_perm {α : Type} (le : α → α → Bool) (l acc : List α) :
    List.Perm (l.foldl (fun acc a => insertLe le a acc) acc) (acc ++ l) := by
  induction l generalizing acc with
  | nil => simp
  | cons a t ih =>
    simp only [List.foldl_cons]
    exact (ih _).trans (((insertLe_perm le a acc).append_right t).trans
      List.perm_middle.symm)

theorem stableSort_perm {α : Type} (le : α → α → Bool) (l : List α) :
    List.Perm (stableSort le l) l := by
  simpa [stableSort] using foldl_insertLe_perm le l []

theorem mem_stableSort {α : Type} {le : α → α → Bool} {l : List α} {a : α} :
    a ∈ stableSort le l ↔ a ∈ l := (stableSort_perm le l).mem_iff

theorem costSum_nil : costSum [] = 0 := by simp [costSum]

theorem costSum_cons (p : RatedProduct) (l : List RatedProduct) :
    costSum (p :: l) = pCost p.product + costSum l := by simp [costSum]

theorem greedySelect_subset (l : List RatedProduct) (rem m : ℚ) :
    ∀ x ∈ greedySelect l rem m, x ∈ l := by
  induction l generalizing rem with
  | nil => simp [greedySelect]
  | cons p t ih =>
    intro x hx
    rw [greedySelect] at hx
    split at hx
    · rcases List.mem_cons.mp hx with h | h
      · exact h ▸ List.mem_cons_self p t
      · exact List.mem_cons_of_mem p (ih _ x h)
    · exact List.mem_cons_of_mem p (ih _ x hx)

theorem greedySelect_cost_le (l : List RatedProduct) (rem m : ℚ) (h : 0 ≤ rem) :
    costSum (greedySelect l rem m) ≤ rem := by
  induction l generalizing rem with
  | nil =>
    simp only [greedySelect, costSum, List.map_nil, List.sum_nil]
    exact h
  | cons p t ih =>
    rw [greedySelect]
    split
    · rename_i hcond
      rw [costSum_cons]
      have := ih (rem - pCost p.product) (by linarith [hcond.1])
      linarith
    · exact ih rem h

theorem greedySelect_nil_of_neg (l : List RatedProduct) (rem m : ℚ) (hneg : rem < 0)
    (hpos : ∀ x ∈ l, 0 < pCost x.product) : greedySelect l rem m = [] := by
  induction l generalizing rem with
  | nil => rfl
  | cons p t ih =>
    rw [greedySelect]
    split
    · rename_i hcond
      exact absurd hcond.1 (by linarith [hpos p (List.mem_cons_self p t)])
    · exact ih _ hneg (fun x hx => hpos x (List.mem_cons_of_mem p hx))

theorem costSum_cents (l : List RatedProduct)
    (h : ∀ x ∈ l, ∃ z : ℤ, pCost x.product * 100 = z) :
    ∃ Z : ℤ, costSum l * 100 = Z := by
  induction l with
  | nil => exact ⟨0, by simp [costSum]⟩
  | cons p t ih =>
    obtain ⟨z, hz⟩ := h p (List.mem_cons_self p t)
    obtain ⟨Z, hZ⟩ := ih (fun x hx => h x (List.mem_cons_of_mem p hx))
    refine ⟨z + Z, ?_⟩
    rw [costSum_cons]
    push_cast
    linarith

theorem dpSelect_subset (l : List RatedProduct) (w : ℤ) :
    ∀ x ∈ dpSelect l w, x ∈ l := by
  induction l generalizing w with
  | nil => simp [dpSelect]
  | cons p t ih =>
    intro x hx
    rw [dpSelect] at hx
    split at hx
    · rcases List.mem_append.mp hx with h | h
      · exact List.mem_cons_of_mem p (ih _ x h)
      · simp at h
        exact h ▸ List.mem_cons_self p t
    · exact List.mem_cons_of_mem p (ih _ x hx)

theorem dpSelect_cents_le (l : List RatedProduct) (w : ℤ) (h0 : 0 ≤ w) :
    ((dpSelect l w).map (fun x => costCents x.product)).sum ≤ w := by
  induction l generalizing w with
  | nil =>
    simp only [dpSelect, List.map_nil, List.sum_nil]
    exact h0
  | cons p t ih =>
    rw [dpSelect]
    split
    · rename_i hcond
      rw [List.map_append, List.sum_append]
      have := ih (w - costCents p.product) (by linarith [hcond.1])
      simp only [List.map_cons, List.map_nil, List.sum_cons, List.sum_nil]
      linarith
    · exact ih w h0

theorem dp_costSum (l : List RatedProduct)
    (h : ∀ x ∈ l, ∃ z : ℤ, pCost x.product * 100 = z) :
    costSum l * 100 = ((l.map (fun x => costCents x.product)).sum : ℚ) := by
  induction l with
  | nil => simp [costSum]
  | cons p t ih =>
    obtain ⟨z, hz⟩ := h p (List.mem_cons_self p t)
    have hcz : costCents p.product = z := by
      unfold costCents
      rw [hz, Int.floor_intCast]
    rw [costSum_cons, List.map_cons, List.sum_cons]
    push_cast
    rw [hcz]
    have := ih (fun x hx => h x (List.mem_cons_of_mem p hx))
    push_cast at this
    linarith

theorem greedyOptimization_subset (l : List RatedProduct) (b m : ℚ) :
    ∀ x ∈ (greedyOptimization l b m).selected, x ∈ l := by
  intro x hx
  simp only [greedyOptimization] at hx
  exact mem_stableSort.mp (greedySelect_subset _ b m x hx)

theorem greedyOptimization_cost_le (l : List RatedProduct) (b m : ℚ) (hb : 0 ≤ b) :
    costSum (greedyOptimization l b m).selected ≤ b := by
  simp only [greedyOptimization]
  exact greedySelect_cost_le _ b m hb

theorem dpOptimization_subset (l : List RatedProduct) (b m : ℚ) :
    ∀ x ∈ (dynamicProgrammingOptimization l b m).selected, x ∈ l := by
  intro x hx
  simp only [dynamicProgrammingOptimization] at hx
  split at hx
  · simp at hx
  · have h1 := dpSelect_subset _ _ x hx
    rw [List.mem_reverse] at h1
    exact (List.mem_filter.mp h1).1

theorem dpOptimization_cost_le (l : List RatedProduct) (b m : ℚ) (hb : 0 ≤ b)
    (h : ∀ x ∈ l, ∃ z : ℤ, pCost x.product * 100 = z) :
    costSum (dynamicProgrammingOptimization l b m).selected ≤ b := by
  simp only [dynamicProgrammingOptimization]
  split
  · simp [costSum]
    exact hb
  · set vps := l.filter (fun p => decide (m ≤ pTotal p.product)) with hvps
    have hsub : ∀ x ∈ dpSelect vps.reverse ⌊b * 100⌋, x ∈ l := by
      intro x hx
      have h1 := dpSelect_subset _ _ x hx
      rw [List.mem_reverse] at h1
      exact (List.mem_filter.mp h1).1
    have hfloor0 : (0:ℤ) ≤ ⌊b * 100⌋ := Int.le_floor.mpr (by push_cast; nlinarith)
    have hcents := dpSelect_cents_le vps.reverse ⌊b * 100⌋ hfloor0
    have hsum := dp_costSum (dpSelect vps.reverse ⌊b * 100⌋)
      (fun x hx => h x (hsub x hx))
    have hcast : (((dpSelect vps.reverse ⌊b * 100⌋).map
        (fun x => costCents x.product)).sum : ℚ) ≤ (⌊b * 100⌋ : ℚ) := by
      exact_mod_cast hcents
    have hfl : ((⌊b * 100⌋ : ℤ) : ℚ) ≤ b * 100 := Int.floor_le _
    nlinarith [hsum, hcast, hfl]

/-- C1 helper: every selected item of the full entry point comes from the
input list. -/
theorem optimizeShoppingList_selected_mem (products : List Product) (maxBudget : ℚ)
    (options : OptimizeOptions) :
    ∀ x ∈ (optimizeShoppingList products maxBudget options).selected,
      x.product ∈ products := by
  intro x hx
  simp only [optimizeShoppingList] at hx
  split at hx
  · simp at hx
  · have hmem : x ∈ (products.filter isValidProduct).map
        (fun p => RatedProduct.mk p (pTotal p / pPrice p)) := by
      by_cases hps : options.prioritizeSustainability
      · simp only [hps, if_true] at hx
        exact greedyOptimization_subset _ _ _ x hx
      · simp only [hps, if_false] at hx
        exact dpOptimization_subset _ _ _ x hx
    obtain ⟨p, hp, rfl⟩ := List.mem_map.mp hmem
    exact (List.mem_filter.mp hp).1

/-- C1 (corrected): with a non-negative budget and every item cost a
non-negative whole number of cents, the reported `totalCost` never exceeds
`maxBudget`, under either strategy. -/
theorem c1_budget_invariant_whole_cents (products : List Product) (maxBudget : ℚ)
    (options : OptimizeOptions) (hb : 0 ≤ maxBudget)
    (hc : ∀ p ∈ products, 0 ≤ pCost p ∧ ∃ z : ℤ, pCost p * 100 = z) :
    (optimizeShoppingList products maxBudget options).totalCost ≤ maxBudget := by
  simp only [optimizeShoppingList]
  split
  · simpa using hb
  · set L := (products.filter isValidProduct).map
      (fun p => RatedProduct.mk p (pTotal p / pPrice p)) with hL
    have hLc : ∀ x ∈ L, ∃ z : ℤ, pCost x.product * 100 = z := by
      intro x hx
      obtain ⟨p, hp, rfl⟩ := List.mem_map.mp hx
      exact (hc p (List.mem_filter.mp hp).1).2
    by_cases hps : options.prioritizeSustainability = true
    · simp only [hps, if_true]
      show round2 (costSum (greedyOptimization L maxBudget options.minScore).selected)
        ≤ maxBudget
      have hcost := greedyOptimization_cost_le L maxBudget options.minScore hb
      have hsub := greedyOptimization_subset L maxBudget options.minScore
      obtain ⟨Z, hZ⟩ := costSum_cents _ (fun x hx => hLc x (hsub x hx))
      rw [round2_eq_of_cents hZ]
      exact hcost
    · simp only [hps, if_false]
      show round2 (costSum
        (dynamicProgrammingOptimization L maxBudget options.minScore).selected) ≤ maxBudget
      have hcost := dpOptimization_cost_le L maxBudget options.minScore hb hLc
      have hsub := dpOptimization_subset L maxBudget options.minScore
      obtain ⟨Z, hZ⟩ := costSum_cents _ (fun x hx => hLc x (hsub x hx))
      rw [round2_eq_of_cents hZ]
      exact hcost

/-- Two items whose cost 0.509 floors to 50 cents each. -/
def subCentItem1 : Product :=
  { id := 1, price := some (509/1000),
    sustainability_score := some { total := some (1/2) } }

def subCentItem2 : Product :=
  { id := 2, price := some (509/1000),
    sustainability_score := some { total := some (1/2) } }

/-- C1 counterexample: with budget 1.00 and two items costing 0.509 each, the
DP strategy floors both costs to 50 cents, selects both, and reports
`totalCost = 1.02 > 1.00`. -/
theorem c1_counterexample :
    ¬ ((optimizeShoppingList [subCentItem1, subCentItem2] 1
      { prioritizeSustainability := false }).totalCost ≤ 1) := by
  apply of_decide_eq_true
  with_unfolding_all rfl

def wholeCentItem : Product :=
  { id := 7, price := some 2,
    sustainability_score := some { total := some (1/2) } }

theorem c1_budget_invariant_whole_cents_witness :
    (0:ℚ) ≤ 3 ∧
    (optimizeShoppingList [wholeCentItem] 3
      { prioritizeSustainability := false }).totalCost ≤ 3 := by
  refine ⟨by norm_num, c1_budget_invariant_whole_cents _ 3 _ (by norm_num) ?_⟩
  intro p hp
  simp only [List.mem_singleton] at hp
  subst hp
  constructor
  · show (0:ℚ) ≤ pCost _
    norm_num [pCost, pPrice, pQty, wholeCentItem]
  · exact ⟨200, by norm_num [pCost, pPrice, pQty, wholeCentItem]⟩

/-- C7 (corrected): no validation of `maxBudget` exists; with the Greedy
strategy a negative budget yields an ordinary well-formed result with empty
selection and zero cost — no failure is surfaced. -/
theorem c7_no_budget_validation (products : List Product) (maxBudget : ℚ)
    (options : OptimizeOptions) (hneg : maxBudget < 0)
    (hpos : ∀ p ∈ products, 0 < pCost p)
    (hgreedy : options.prioritizeSustainability = true) :
    (optimizeShoppingList products maxBudget options).selected = [] ∧
    (optimizeShoppingList products maxBudget options).totalCost = 0 := by
  simp only [optimizeShoppingList]
  split
  · exact ⟨rfl, rfl⟩
  · set L := (products.filter isValidProduct).map
      (fun p => RatedProduct.mk p (pTotal p / pPrice p)) with hL
    have hposL : ∀ x ∈ stableSort (fun a b => decide (b.ratio ≤ a.ratio)) L,
        0 < pCost x.product := by
      intro x hx
      obtain ⟨p, hp, rfl⟩ := List.mem_map.mp (mem_stableSort.mp hx)
      exact hpos p (List.mem_filter.mp hp).1
    have hnil : greedySelect (stableSort (fun a b => decide (b.ratio ≤ a.ratio)) L)
        maxBudget options.minScore = [] :=
      greedySelect_nil_of_neg _ maxBudget options.minScore hneg hposL
    simp only [hgreedy, if_true]
    constructor
    · show (greedyOptimization L maxBudget options.minScore).selected = []
      simp only [greedyOptimization]
      exact hnil
    · show round2 (costSum (greedyOptimization L maxBudget options.minScore).selected) = 0
      simp only [greedyOptimization, hnil, costSum, List.map_nil, List.sum_nil]
      have : ((0:ℚ) * 100) = ((0:ℤ) : ℚ) := by norm_num
      rw [round2_eq_of_cents this]

/-- C7 counterexample: a negative budget is not rejected — the greedy result
for `maxBudget = -1` is an ordinary optimization result carrying the greedy
success message, not a failure. -/
theorem c7_counterexample :
    (optimizeShoppingList [subCentItem1] (-1) {}).message =
      "Seleccionados 0 productos usando algoritmo Greedy" ∧
    (optimizeShoppingList [subCentItem1] (-1) {}).selected = [] := by
  constructor
  · apply of_decide_eq_true
    with_unfolding_all rfl
  · apply of_decide_eq_true
    with_unfolding_all rfl

theorem c7_no_budget_validation_witness :
    (-1 : ℚ) < 0 ∧
    (optimizeShoppingList [subCentItem2] (-1) {}).selected = [] ∧
    (optimizeShoppingList [subCentItem2] (-1) {}).totalCost = 0 := by
  refine ⟨by norm_num, c7_no_budget_validation _ _ _ (by norm_num) ?_ rfl⟩
  intro p hp
  simp only [List.mem_singleton] at hp
  subst hp
  show (0:ℚ) < pCost _
  norm_num [pCost, pPrice, pQty, subCentItem2]

/-- C8: with data-model-conforming (non-negative) prices, a list in which no
item has both a positive price and a defined total score produces the
well-formed empty result whose message is the "no valid products"
indicator; the empty list is the special case of an empty quantification. -/
theorem c8_empty_result (products : List Product) (maxBudget : ℚ)
    (options : OptimizeOptions)
    (hprice : ∀ p ∈ products, ∀ v : ℚ, p.price = some v → 0 ≤ v)
    (hno : ∀ p ∈ products,
      ¬ ((∃ v : ℚ, p.price = some v ∧ 0 < v) ∧
        (p.sustainability_score.bind (·.total)).isSome = true)) :
    optimizeShoppingList products maxBudget options =
      ⟨[], 0, 0, 0, 0, 0, none, none, "No hay productos válidos para optimizar"⟩ ∧
    strIncludes "No hay productos válidos para optimizar" "productos válidos" = true := by
  constructor
  · have hfil : products.filter isValidProduct = [] := by
      rw [List.filter_eq_nil_iff]
      intro p hp hval
      simp only [isValidProduct, Bool.and_eq_true] at hval
      obtain ⟨⟨hv, _⟩, htot⟩ := hval
      apply hno p hp
      refine ⟨?_, htot⟩
      rcases hq : p.price with _ | v
      · rw [hq] at hv; simp at hv
      · rw [hq] at hv
        simp only [ne_eq, decide_eq_true_eq] at hv
        have h0 := hprice p hp v hq
        exact ⟨v, rfl, lt_of_le_of_ne h0 (Ne.symm hv)⟩
    simp only [optimizeShoppingList, hfil]
    rfl
  · apply of_decide_eq_true
    with_unfolding_all rfl

theorem c8_empty_result_witness :
    optimizeShoppingList [] 100 {} =
      ⟨[], 0, 0, 0, 0, 0, none, none, "No hay productos válidos para optimizar"⟩ ∧
    strIncludes "No hay productos válidos para optimizar" "productos válidos" = true :=
  c8_empty_result [] 100 {} (by intro p hp; simp at hp) (by intro p hp; simp at hp)

theorem clamp01_le_of_le {y c : ℚ} (h : y ≤ c) (hc : 0 ≤ c) : clamp01 y ≤ c :=
  max_le hc ((min_le_right 1 y).trans h)

theorem le_clamp01_of_le {y c : ℚ} (h : c ≤ y) (hc1 : c ≤ 1) : c ≤ clamp01 y :=
  (le_min hc1 h).trans (le_max_right 0 (min 1 y))

theorem calculateEconomicScore_mem (p : Product) :
    0 ≤ calculateEconomicScore p ∧ calculateEconomicScore p ≤ 1 := by
  unfold calculateEconomicScore
  cases hp : p.price with
  | none => norm_num
  | some v =>
    dsimp only
    by_cases hv : v = 0
    · rw [if_pos hv]
      norm_num
    · rw [if_neg hv]
      exact ⟨clamp01_nonneg _, clamp01_le_one _⟩

theorem calculateEnvironmentalScore_mem (p : Product) :
    0 ≤ calculateEnvironmentalScore p ∧ calculateEnvironmentalScore p ≤ 1 := by
  simp only [calculateEnvironmentalScore]
  exact ⟨clamp01_nonneg _, clamp01_le_one _⟩

theorem calculateSocialScore_mem (p : Product) :
    0 ≤ calculateSocialScore p ∧ calculateSocialScore p ≤ 1 := by
  simp only [calculateSocialScore]
  exact ⟨clamp01_nonneg _, clamp01_le_one _⟩

/-- C5: with the default weights the rounded total and all three rounded
breakdown components lie in `[0,1]`, whatever fields are missing. -/
theorem c5_scorer_bounds (p : Product) :
    (0 ≤ (calculateSustainabilityScore p defaultWeights).total ∧
      (calculateSustainabilityScore p defaultWeights).total ≤ 1) ∧
    (0 ≤ (calculateSustainabilityScore p defaultWeights).economic ∧
      (calculateSustainabilityScore p defaultWeights).economic ≤ 1) ∧
    (0 ≤ (calculateSustainabilityScore p defaultWeights).environmental ∧
      (calculateSustainabilityScore p defaultWeights).environmental ≤ 1) ∧
    (0 ≤ (calculateSustainabilityScore p defaultWeights).social ∧
      (calculateSustainabilityScore p defaultWeights).social ≤ 1) := by
  obtain ⟨he0, he1⟩ := calculateEconomicScore_mem p
  obtain ⟨hv0, hv1⟩ := calculateEnvironmentalScore_mem p
  obtain ⟨hs0, hs1⟩ := calculateSocialScore_mem p
  simp only [calculateSustainabilityScore, defaultWeights]
  refine ⟨⟨round2_nonneg (by nlinarith), round2_le_one (by nlinarith)⟩,
    ⟨round2_nonneg he0, round2_le_one he1⟩,
    ⟨round2_nonneg hv0, round2_le_one hv1⟩,
    ⟨round2_nonneg hs0, round2_le_one hs1⟩⟩

/-- The economic formula stated by the spec for a present price `p` and
nutrition grade A: `min(1, 1 - min(p/50, 1) + 0.1)`. -/
def econSpecFormula (p : ℚ) : ℚ := min 1 (1 - min (p / 50) 1 + 1/10)

/-- A product with a present but zero price and nutrition grade A. -/
def zeroPriceGradeA : Product :=
  { id := 11, price := some 0, nutrition_grade := some "A" }

/-- C6 counterexample: for the present price 0 with grade A the code returns
the neutral 0.5 (zero is falsy, so the price branch and the nutrition bonus
are skipped), while the claimed formula gives `min(1, 1 - 0 + 0.1) = 1`. -/
theorem c6_counterexample :
    calculateEconomicScore zeroPriceGradeA ≠ econSpecFormula 0 ∧
    calculateEconomicScore zeroPriceGradeA = 1/2 ∧ econSpecFormula 0 = 1 := by
  refine ⟨?_, ?_, ?_⟩ <;>
    · apply of_decide_eq_true
      with_unfolding_all rfl

/-- C6 (corrected): for a present *nonzero* price the economic sub-score is
`clamp(1 - min(price/50,1) + nutrition bonus)`, and with grade A it equals
the spec's `min(1, 1 - min(p/50,1) + 0.1)`; a present zero price instead
falls back to the neutral 0.5 without the nutrition bonus. -/
theorem c6_economic_formula (p : Product) (v : ℚ) (h1 : p.price = some v)
    (h2 : v ≠ 0) :
    calculateEconomicScore p =
      clamp01 (1 - min (v / 50) 1 +
        (if p.nutrition_grade = some "A" ∨ p.nutrition_grade = some "B" then 1/10
         else 0)) ∧
    (p.nutrition_grade = some "A" → calculateEconomicScore p = econSpecFormula v) := by
  have hbase : calculateEconomicScore p =
      clamp01 (1 - min (v / 50) 1 +
        (if p.nutrition_grade = some "A" ∨ p.nutrition_grade = some "B" then 1/10
         else 0)) := by
    unfold calculateEconomicScore
    rw [h1]
    dsimp only
    rw [if_neg h2]
    split_ifs <;> ring_nf
  refine ⟨hbase, fun hg => ?_⟩
  rw [hbase]
  have hA : p.nutrition_grade = some "A" ∨ p.nutrition_grade = some "B" := Or.inl hg
  rw [if_pos hA]
  unfold clamp01 econSpecFormula
  have hmin : min (v / 50) 1 ≤ 1 := min_le_right _ _
  have hx : 0 ≤ 1 - min (v / 50) 1 + 1/10 := by linarith
  rw [max_eq_right]
  exact le_min (by norm_num) hx

theorem c6_economic_formula_witness :
    ((some (10:ℚ) : Option ℚ) = some 10 ∧ (10:ℚ) ≠ 0) ∧
    calculateEconomicScore { id := 12, price := some 10, nutrition_grade := some "A" } =
      econSpecFormula 10 := by
  refine ⟨⟨rfl, by norm_num⟩, ?_⟩
  exact (c6_economic_formula
    { id := 12, price := some 10, nutrition_grade := some "A" } 10 rfl
    (by norm_num)).2 rfl

/-- The carbon-footprint blend applied to the eco-label base score. -/
def carbonBlend (p : Product) (x : ℚ) : ℚ :=
  match p.carbon_footprint with
  | none => x
  | some c => if c = 0 then x else x * (7/10) + max 0 (1 - c/5) * (3/10)

/-- The packaging and origin bonuses of the environmental sub-score. -/
def envBonus (p : Product) : ℚ :=
  (if strIncludes ((p.openfoodfacts_data.bind (·.packaging)).getD "").toLower "reciclable" ∨
      strIncludes ((p.openfoodfacts_data.bind (·.packaging)).getD "").toLower "biodegradable"
   then 1/10 else 0) +
  (if (p.openfoodfacts_data.bind (·.origins)).getD "" ≠ "" ∧
      ¬ (strIncludes ((p.openfoodfacts_data.bind (·.origins)).getD "").toLower "import")
   then 1/20 else 0)

/-- The eco-label base value of the environmental sub-score. -/
def ecoBase (p : Product) : ℚ :=
  match p.eco_score with
  | none => 1/2
  | some g => if g = "" then 1/2 else (ecoScoreMap g).getD (1/2)

theorem calculateEnvironmentalScore_eq (p : Product) :
    calculateEnvironmentalScore p = clamp01 (carbonBlend p (ecoBase p) + envBonus p) := by
  simp only [calculateEnvironmentalScore, carbonBlend, envBonus, ecoBase]
  cases p.eco_score <;> cases p.carbon_footprint <;> split_ifs <;> ring_nf

theorem envBonus_mem (p : Product) : 0 ≤ envBonus p ∧ envBonus p ≤ 3/20 := by
  unfold envBonus
  split_ifs <;> norm_num

theorem round2_lt {a b : ℚ} (h : a + 1/100 ≤ b) : round2 a < round2 b := by
  unfold round2
  have h1 : jsRound (a * 100) < jsRound (b * 100) := jsRound_lt (by linarith)
  have h2 : ((jsRound (a * 100) : ℤ) : ℚ) < ((jsRound (b * 100) : ℤ) : ℚ) := by
    exact_mod_cast h1
  linarith

/-- C9: holding every other field fixed (with a data-model-conforming,
non-negative carbon footprint), eco-label grade A yields a strictly higher
rounded total than grade E under the default weights. -/
theorem c9_eco_grade_monotone (p : Product)
    (hc : ∀ v : ℚ, p.carbon_footprint = some v → 0 ≤ v) :
    (calculateSustainabilityScore { p with eco_score := some "E" } defaultWeights).total <
      (calculateSustainabilityScore { p with eco_score := some "A" } defaultWeights).total := by
  have hecon : calculateEconomicScore { p with eco_score := some "E" } =
      calculateEconomicScore { p with eco_score := some "A" } := rfl
  have hsoc : calculateSocialScore { p with eco_score := some "E" } =
      calculateSocialScore { p with eco_score := some "A" } := rfl
  have hbonus := envBonus_mem p
  have hbA : envBonus { p with eco_score := some "A" } = envBonus p := rfl
  have hbE : envBonus { p with eco_score := some "E" } = envBonus p := rfl
  have hcbA : carbonBlend { p with eco_score := some "A" } = carbonBlend p := rfl
  have hcbE : carbonBlend { p with eco_score := some "E" } = carbonBlend p := rfl
  have hbaseA : ecoBase { p with eco_score := some "A" } = 1 := by
    apply of_decide_eq_true
    with_unfolding_all rfl
  have hbaseE : ecoBase { p with eco_score := some "E" } = 1/5 := by
    apply of_decide_eq_true
    with_unfolding_all rfl
  have hblend : 7/10 ≤ carbonBlend p 1 ∧ carbonBlend p 1 ≤ 1 ∧
      0 ≤ carbonBlend p (1/5) ∧ carbonBlend p (1/5) ≤ 22/50 := by
    unfold carbonBlend
    rcases hcf : p.carbon_footprint with _ | c
    · norm_num
    · dsimp only
      by_cases hc0 : c = 0
      · rw [if_pos hc0, if_pos hc0]
        norm_num
      · rw [if_neg hc0, if_neg hc0]
        have hc1 : 0 ≤ c := hc c hcf
        have hcs0 : 0 ≤ max 0 (1 - c/5) := le_max_left _ _
        have hcs1 : max 0 (1 - c/5) ≤ 1 := max_le (by norm_num) (by linarith)
        refine ⟨by nlinarith, by nlinarith, by nlinarith, by nlinarith⟩
  have hgap : calculateEnvironmentalScore { p with eco_score := some "E" } + 11/100 ≤
      calculateEnvironmentalScore { p with eco_score := some "A" } := by
    rw [calculateEnvironmentalScore_eq, calculateEnvironmentalScore_eq,
        hbA, hbE, hcbA, hcbE, hbaseA, hbaseE]
    have h1 : 7/10 ≤ clamp01 (carbonBlend p 1 + envBonus p) :=
      le_clamp01_of_le (by linarith [hblend.1, hbonus.1]) (by norm_num)
    have h2 : clamp01 (carbonBlend p (1/5) + envBonus p) ≤ 59/100 :=
      clamp01_le_of_le (by linarith [hblend.2.2.2, hbonus.2]) (by norm_num)
    linarith
  simp only [calculateSustainabilityScore, defaultWeights]
  rw [hecon, hsoc]
  apply round2_lt
  nlinarith [hgap]

def c9BaseProduct : Product :=
  { id := 21, price := some 10, carbon_footprint := some 2 }

theorem c9_eco_grade_monotone_witness :
    (∀ v : ℚ, c9BaseProduct.carbon_footprint = some v → 0 ≤ v) ∧
    (calculateSustainabilityScore { c9BaseProduct with eco_score := some "E" }
        defaultWeights).total <
      (calculateSustainabilityScore { c9BaseProduct with eco_score := some "A" }
        defaultWeights).total := by
  have hcarbon : ∀ v : ℚ, c9BaseProduct.carbon_footprint = some v → 0 ≤ v := by
    intro v hv
    simp only [c9BaseProduct, Option.some.injEq] at hv
    subst hv
    norm_num
  exact ⟨hcarbon, c9_eco_grade_monotone c9BaseProduct hcarbon⟩

theorem min_bonus_nonneg (x : ℚ) (hx : 0 ≤ x) : 0 ≤ min (15/100 : ℚ) x :=
  le_min (by norm_num) hx

theorem min_bonus_le (x : ℚ) : min (15/100 : ℚ) x ≤ 15/100 := min_le_left _ _

theorem categoryBonusOf_nonneg (ps cs : List String) : 0 ≤ categoryBonusOf ps cs := by
  simp only [categoryBonusOf]
  split_ifs with h1 h2 h3
  · have := min_bonus_nonneg ((((ps.filter (fun cat => cs.any (fun candCat =>
      strIncludes candCat cat || strIncludes cat candCat))).length : ℚ)) * (5/100))
      (by positivity)
    linarith
  · exact min_bonus_nonneg _ (by positivity)
  · norm_num
  · norm_num

theorem categoryBonusOf_le (ps cs : List String) : categoryBonusOf ps cs ≤ 1/4 := by
  simp only [categoryBonusOf]
  split_ifs with h1 h2 h3
  · have := min_bonus_le ((((ps.filter (fun cat => cs.any (fun candCat =>
      strIncludes candCat cat || strIncludes cat candCat))).length : ℚ)) * (5/100))
    linarith
  · have := min_bonus_le ((((ps.filter (fun cat => cs.any (fun candCat =>
      strIncludes candCat cat || strIncludes cat candCat))).length : ℚ)) * (5/100))
    linarith
  · norm_num
  · norm_num

theorem categoryBonusOf_pos_overlap {ps cs : List String}
    (h : 0 < categoryBonusOf ps cs) :
    (!ps.isEmpty && !cs.isEmpty && catOverlap ps cs) = true := by
  simp only [categoryBonusOf] at h
  split_ifs at h with h1 h2 h3
  · rw [h1]
    simp only [Bool.true_and]
    have hne : ps.filter (fun cat => cs.any (fun candCat =>
        strIncludes candCat cat || strIncludes cat candCat)) ≠ [] := by
      intro hnil
      rw [hnil] at h2
      simp at h2
    obtain ⟨a, ha⟩ := List.exists_mem_of_ne_nil _ hne
    obtain ⟨hap, haf⟩ := List.mem_filter.mp ha
    unfold catOverlap
    exact List.any_eq_true.mpr ⟨a, hap, haf⟩
  · rw [h1]
    simp only [Bool.true_and]
    have hne : ps.filter (fun cat => cs.any (fun candCat =>
        strIncludes candCat cat || strIncludes cat candCat)) ≠ [] := by
      intro hnil
      rw [hnil] at h2
      simp at h2
    obtain ⟨a, ha⟩ := List.exists_mem_of_ne_nil _ hne
    obtain ⟨hap, haf⟩ := List.mem_filter.mp ha
    unfold catOverlap
    exact List.any_eq_true.mpr ⟨a, hap, haf⟩
  · exact absurd h (by norm_num)
  · exact absurd h (by norm_num)

theorem scoreOkOf_total_bound {product : Product} {criteria : SubstituteCriteria}
    {candidate : Product} (hmin : 0 ≤ criteria.minScoreImprovement)
    (h : scoreOkOf product criteria candidate = true) :
    pTotal product - 3/10 ≤ pTotal candidate := by
  simp only [scoreOkOf] at h
  have hB0 := categoryBonusOf_nonneg (significantCats (extractCategories product))
    (significantCats (extractCategories candidate))
  have hB1 := categoryBonusOf_le (significantCats (extractCategories product))
    (significantCats (extractCategories candidate))
  split_ifs at h with hsh hsim hpos
  · have hd := of_decide_eq_true h
    linarith
  · have hd := of_decide_eq_true h
    have hBz : categoryBonusOf (significantCats (extractCategories product))
        (significantCats (extractCategories candidate)) = 0 := by
      rcases eq_or_lt_of_le hB0 with he | hlt
      · exact he.symm
      · exfalso
        apply hsh
        have hov := categoryBonusOf_pos_overlap hlt
        simp only [hasSharedCatsOf, Bool.or_eq_true, Bool.and_eq_true] at hov ⊢
        tauto
    rw [hBz] at hd
    linarith
  · exfalso
    apply hsh
    have hov := categoryBonusOf_pos_overlap hpos
    simp only [hasSharedCatsOf, Bool.or_eq_true, Bool.and_eq_true] at hov ⊢
    tauto
  · have hd := of_decide_eq_true h
    have hBz : categoryBonusOf (significantCats (extractCategories product))
        (significantCats (extractCategories candidate)) = 0 :=
      le_antisymm (not_lt.mp hpos) hB0
    rw [hBz] at hd
    linarith

theorem passesFilter_total_bound {product : Product} {criteria : SubstituteCriteria}
    {candidate : Product} (hmin : 0 ≤ criteria.minScoreImprovement)
    (h : passesFilter product criteria candidate = true) :
    pTotal product - 3/10 ≤ pTotal candidate := by
  simp only [passesFilter, Bool.and_eq_true] at h
  obtain ⟨⟨⟨⟨⟨h1, h2⟩, h3⟩, h4⟩, h5⟩, h6⟩ := h
  exact scoreOkOf_total_bound hmin h4

theorem singleResult_candidate (s : ScoredCandidate) :
    ∀ e ∈ singleResult s, e.candidate = s := by
  intro e he
  unfold singleResult at he
  split_ifs at he <;> (rw [List.mem_singleton] at he; rw [he])

theorem singleResult_length (s : ScoredCandidate) : (singleResult s).length = 1 := by
  unfold singleResult
  split_ifs <;> rfl

theorem head?_mem {α : Type} {l : List α} {a : α} (h : l.head? = some a) : a ∈ l :=
  List.mem_of_mem_head? (by simp [h])

theorem dimEntries_candidate {be bv bs : Option ScoredCandidate} :
    ∀ e ∈ dimEntries be bv bs,
      be = some e.candidate ∨ bv = some e.candidate ∨ bs = some e.candidate := by
  intro e he
  unfold dimEntries at he
  rcases be with _ | c1 <;> rcases bv with _ | c2 <;> rcases bs with _ | c3 <;>
    dsimp only at he <;>
    (try split_ifs at he) <;>
    simp only [List.mem_append, List.mem_singleton, List.not_mem_nil, List.nil_append,
      List.mem_cons, false_or, or_false] at he <;>
    (rcases he with (rfl | rfl) | rfl <;> simp)

theorem dimEntries_length (be bv bs : Option ScoredCandidate) :
    (dimEntries be bv bs).length ≤ 3 := by
  unfold dimEntries
  rcases be with _ | c1 <;> rcases bv with _ | c2 <;> rcases bs with _ | c3 <;>
    dsimp only <;> (try split_ifs) <;> simp
theorem dimEntries_ids_nodup (be bv bs : Option ScoredCandidate) :
    ((dimEntries be bv bs).map entryId).Nodup := by
  unfold dimEntries
  rcases be with _ | c1 <;> rcases bv with _ | c2 <;> rcases bs with _ | c3 <;>
    dsimp only <;> (try split_ifs) <;>
    simp_all [entryId, scId, List.contains_eq_any_beq] <;> omega

theorem dimEntries_count_economic (be bv bs : Option ScoredCandidate) :
    ((dimEntries be bv bs).map (fun e => e.recommendationType)).count "economic" ≤ 1 := by
  unfold dimEntries
  rcases be with _ | c1 <;> rcases bv with _ | c2 <;> rcases bs with _ | c3 <;>
    dsimp only <;> (try split_ifs) <;> simp [List.count_cons]

theorem dimEntries_count_environmental (be bv bs : Option ScoredCandidate) :
    ((dimEntries be bv bs).map (fun e => e.recommendationType)).count "environmental" ≤ 1 := by
  unfold dimEntries
  rcases be with _ | c1 <;> rcases bv with _ | c2 <;> rcases bs with _ | c3 <;>
    dsimp only <;> (try split_ifs) <;> simp [List.count_cons]

theorem dimEntries_count_social (be bv bs : Option ScoredCandidate) :
    ((dimEntries be bv bs).map (fun e => e.recommendationType)).count "social" ≤ 1 := by
  unfold dimEntries
  rcases be with _ | c1 <;> rcases bv with _ | c2 <;> rcases bs with _ | c3 <;>
    dsimp only <;> (try split_ifs) <;> simp [List.count_cons]
theorem multiResult_candidate_mem (cur pe pv ps : ℚ) (mr : ℕ)
    (cws : List ScoredCandidate) :
    ∀ e ∈ multiResult cur pe pv ps mr cws, e.candidate ∈ cws := by
  intro e he
  simp only [multiResult] at he
  set VC := cws.filter (fun c => decide (cur - 5/100 ≤ scTotal c)) with hVC
  set CTU := if 3 ≤ VC.length then VC else cws with hCTU
  set S1 := stableSort (leOfCmp (cmpEconomic cur pe)) CTU with hS1
  set S2 := stableSort (leOfCmp (cmpEnvironmental cur pv)) S1 with hS2
  set S3 := stableSort (leOfCmp (cmpSocial cur ps)) S2 with hS3
  have hCTUsub : ∀ x ∈ CTU, x ∈ cws := by
    rw [hCTU]
    split
    · intro x hx
      exact (List.mem_filter.mp (hVC ▸ hx)).1
    · intro x hx
      exact hx
  have hS1sub : ∀ x ∈ S1, x ∈ cws := fun x hx => hCTUsub x (mem_stableSort.mp (hS1 ▸ hx))
  have hS2sub : ∀ x ∈ S2, x ∈ cws := fun x hx => hS1sub x (mem_stableSort.mp (hS2 ▸ hx))
  have hS3sub : ∀ x ∈ S3, x ∈ cws := fun x hx => hS2sub x (mem_stableSort.mp (hS3 ▸ hx))
  have hAfter : ∀ x ∈ (if 3 ≤ VC.length then cws else S3), x ∈ cws := by
    split
    · intro x hx; exact hx
    · intro x hx; exact hS3sub x hx
  have hdims : ∀ d ∈ dimEntries S1.head? S2.head? S3.head?, d.candidate ∈ cws := by
    intro d hd
    rcases dimEntries_candidate d hd with h | h | h
    · exact hS1sub _ (head?_mem h)
    · exact hS2sub _ (head?_mem h)
    · exact hS3sub _ (head?_mem h)
  split at he
  · rcases List.mem_append.mp he with h | h
    · exact hdims e h
    · obtain ⟨c, hc, rfl⟩ := List.mem_map.mp h
      have h1 : c ∈ stableSort (leOfCmp (cmpTotal cur))
          (((if 3 ≤ VC.length then cws else S3)).filter (fun c =>
            !((dimEntries S1.head? S2.head? S3.head?).map entryId).contains (scId c) &&
            decide (cur - 2/100 ≤ scTotal c))) := List.mem_of_mem_take hc
      have h2 := mem_stableSort.mp h1
      exact hAfter _ (List.mem_filter.mp h2).1
  · exact hdims e he

theorem backfill_length_le {α β : Type} (dims : List α) (l : List β) (mr : ℕ)
    (f : β → α) (hd : dims.length ≤ 3) :
    (if dims.length < mr then dims ++ (l.take (mr - dims.length)).map f
     else dims).length ≤ max 3 mr := by
  split
  · rw [List.length_append, List.length_map]
    have := List.length_take_le (mr - dims.length) l
    omega
  · omega

theorem multiResult_length (cur pe pv ps : ℚ) (mr : ℕ) (cws : List ScoredCandidate) :
    (multiResult cur pe pv ps mr cws).length ≤ max 3 mr := by
  simp only [multiResult]
  exact backfill_length_le _ _ _ _ (dimEntries_length _ _ _)
theorem backfill_count_le (dims : List SubstituteEntry) (l : List ScoredCandidate)
    (mr : ℕ) (t : String) (ht : ¬ "balanced" = t)
    (hd : (dims.map (fun e => e.recommendationType)).count t ≤ 1) :
    ((if dims.length < mr then
        dims ++ (l.take (mr - dims.length)).map
          (fun c => (⟨c, "balanced", "Mejor Opción Balanceada"⟩ : SubstituteEntry))
      else dims).map (fun e => e.recommendationType)).count t ≤ 1 := by
  split
  · rw [List.map_append, List.count_append, List.map_map]
    have h0 : ((l.take (mr - dims.length)).map ((fun (e : SubstituteEntry) =>
        e.recommendationType) ∘ (fun c =>
          (⟨c, "balanced", "Mejor Opción Balanceada"⟩ : SubstituteEntry)))).count t = 0 := by
      apply List.count_eq_zero.mpr
      intro h
      obtain ⟨a, _, hx⟩ := List.mem_map.mp h
      exact ht hx
    omega
  · exact hd

theorem backfill_ids_nodup (dims : List SubstituteEntry) (l : List ScoredCandidate)
    (mr : ℕ) (hd : (dims.map entryId).Nodup) (hl : (l.map scId).Nodup)
    (hdisj : ∀ c ∈ l, scId c ∉ dims.map entryId) :
    ((if dims.length < mr then
        dims ++ (l.take (mr - dims.length)).map
          (fun c => (⟨c, "balanced", "Mejor Opción Balanceada"⟩ : SubstituteEntry))
      else dims).map entryId).Nodup := by
  split
  · rw [List.map_append, List.map_map]
    have hmm : (l.take (mr - dims.length)).map (entryId ∘ (fun c =>
        (⟨c, "balanced", "Mejor Opción Balanceada"⟩ : SubstituteEntry))) =
        (l.take (mr - dims.length)).map scId := rfl
    rw [hmm]
    refine List.Nodup.append hd (hl.sublist ((List.take_sublist _ _).map scId)) ?_
    intro a h1 h2
    obtain ⟨c, hc, rfl⟩ := List.mem_map.mp h2
    exact hdisj c (List.mem_of_mem_take hc) h1
  · exact hd

theorem multiResult_ids_nodup (cur pe pv ps : ℚ) (mr : ℕ)
    (cws : List ScoredCandidate) (hn : (cws.map scId).Nodup) :
    ((multiResult cur pe pv ps mr cws).map entryId).Nodup := by
  simp only [multiResult]
  set VC := cws.filter (fun c => decide (cur - 5/100 ≤ scTotal c)) with hVC
  set CTU := if 3 ≤ VC.length then VC else cws with hCTU
  set S1 := stableSort (leOfCmp (cmpEconomic cur pe)) CTU with hS1
  set S2 := stableSort (leOfCmp (cmpEnvironmental cur pv)) S1 with hS2
  set S3 := stableSort (leOfCmp (cmpSocial cur ps)) S2 with hS3
  have hCTUn : (CTU.map scId).Nodup := by
    rw [hCTU]
    split
    · exact hn.sublist ((hVC ▸ List.filter_sublist cws).map scId)
    · exact hn
  have hS1n : (S1.map scId).Nodup :=
    (((stableSort_perm _ CTU).map scId).symm.nodup hCTUn : _)
  have hS2n : (S2.map scId).Nodup :=
    (((stableSort_perm _ S1).map scId).symm.nodup hS1n : _)
  have hS3n : (S3.map scId).Nodup :=
    (((stableSort_perm _ S2).map scId).symm.nodup hS2n : _)
  have hAftern : (((if 3 ≤ VC.length then cws else S3)).map scId).Nodup := by
    split
    · exact hn
    · exact hS3n
  set dims := dimEntries S1.head? S2.head? S3.head? with hdims
  set F := ((if 3 ≤ VC.length then cws else S3)).filter (fun c =>
    !(dims.map entryId).contains (scId c) && decide (cur - 2/100 ≤ scTotal c)) with hF
  set SBT := stableSort (leOfCmp (cmpTotal cur)) F with hSBT
  have hFn : (F.map scId).Nodup :=
    hAftern.sublist ((hF ▸ List.filter_sublist _).map scId)
  have hSBTn : (SBT.map scId).Nodup :=
    (((stableSort_perm _ F).map scId).symm.nodup hFn : _)
  have hdisj : ∀ c ∈ SBT, scId c ∉ dims.map entryId := by
    intro c hc
    have h1 := List.mem_filter.mp (hF ▸ mem_stableSort.mp (hSBT ▸ hc))
    have h2 := h1.2
    simp only [Bool.and_eq_true, Bool.not_eq_true'] at h2
    simpa using h2.1
  exact backfill_ids_nodup dims SBT mr (dimEntries_ids_nodup _ _ _) hSBTn hdisj

theorem multiResult_count_economic (cur pe pv ps : ℚ) (mr : ℕ)
    (cws : List ScoredCandidate) :
    ((multiResult cur pe pv ps mr cws).map
      (fun e => e.recommendationType)).count "economic" ≤ 1 := by
  simp only [multiResult]
  exact backfill_count_le _ _ _ _ (by simp) (dimEntries_count_economic _ _ _)

theorem multiResult_count_environmental (cur pe pv ps : ℚ) (mr : ℕ)
    (cws : List ScoredCandidate) :
    ((multiResult cur pe pv ps mr cws).map
      (fun e => e.recommendationType)).count "environmental" ≤ 1 := by
  simp only [multiResult]
  exact backfill_count_le _ _ _ _ (by simp) (dimEntries_count_environmental _ _ _)

theorem multiResult_count_social (cur pe pv ps : ℚ) (mr : ℕ)
    (cws : List ScoredCandidate) :
    ((multiResult cur pe pv ps mr cws).map
      (fun e => e.recommendationType)).count "social" ≤ 1 := by
  simp only [multiResult]
  exact backfill_count_le _ _ _ _ (by simp) (dimEntries_count_social _ _ _)
theorem findSmartSubstitutes_candidate_mem (product : Product) (pool : List Product)
    (criteria : SubstituteCriteria) :
    ∀ e ∈ findSmartSubstitutes product pool criteria,
      e.candidate ∈ (pool.filter (passesFilter product criteria)).map (mkScored product) := by
  intro e he
  simp only [findSmartSubstitutes] at he
  cases hcws : (pool.filter (passesFilter product criteria)).map (mkScored product) with
  | nil =>
    rw [hcws] at he
    dsimp only at he
    exact absurd (multiResult_candidate_mem _ _ _ _ _ _ e he) (List.not_mem_nil _)
  | cons a rest =>
    cases hrest : rest with
    | nil =>
      rw [hrest] at hcws
      rw [hcws] at he
      dsimp only at he
      rw [singleResult_candidate a e he]
      exact List.mem_singleton.mpr rfl
    | cons b t =>
      rw [hrest] at hcws
      rw [hcws] at he
      dsimp only at he
      exact multiResult_candidate_mem _ _ _ _ _ _ e he

/-- C2 (corrected): every returned substitute's total is at least the
original's total minus 0.30 (0.05 tolerance plus the category bonus of at
most 0.25), for any non-negative `minScoreImprovement`. -/
theorem c2_substitute_score_floor (product : Product) (pool : List Product)
    (criteria : SubstituteCriteria) (hmin : 0 ≤ criteria.minScoreImprovement) :
    ∀ e ∈ findSmartSubstitutes product pool criteria,
      pTotal product - 3/10 ≤ entryTotal e := by
  intro e he
  have hmem := findSmartSubstitutes_candidate_mem product pool criteria e he
  obtain ⟨cand, hcand, hcand2⟩ := List.mem_map.mp hmem
  have hpass := (List.mem_filter.mp hcand).2
  have hb := passesFilter_total_bound hmin hpass
  have heq : entryTotal e = pTotal cand := by
    rw [entryTotal, ← hcand2]
    rfl
  rw [heq]
  exact hb
/-- C3 (corrected): with pairwise distinct pool identifiers, no two result
entries share an id, and each of the three dimension labels appears at most
once; the `balanced` backfill label may appear several times. -/
theorem c3_result_dedup (product : Product) (pool : List Product)
    (criteria : SubstituteCriteria) (hids : (pool.map Product.id).Nodup) :
    ((findSmartSubstitutes product pool criteria).map entryId).Nodup ∧
    ((findSmartSubstitutes product pool criteria).map
      (fun e => e.recommendationType)).count "economic" ≤ 1 ∧
    ((findSmartSubstitutes product pool criteria).map
      (fun e => e.recommendationType)).count "environmental" ≤ 1 ∧
    ((findSmartSubstitutes product pool criteria).map
      (fun e => e.recommendationType)).count "social" ≤ 1 := by
  have hcwsn : (((pool.filter (passesFilter product criteria)).map
      (mkScored product)).map scId).Nodup := by
    rw [List.map_map]
    exact hids.sublist ((List.filter_sublist pool).map Product.id)
  simp only [findSmartSubstitutes]
  cases hcws : (pool.filter (passesFilter product criteria)).map (mkScored product) with
  | nil =>
    rw [hcws] at hcwsn
    dsimp only
    exact ⟨multiResult_ids_nodup _ _ _ _ _ _ hcwsn,
      multiResult_count_economic _ _ _ _ _ _,
      multiResult_count_environmental _ _ _ _ _ _,
      multiResult_count_social _ _ _ _ _ _⟩
  | cons a rest =>
    cases hrest : rest with
    | nil =>
      dsimp only
      unfold singleResult
      split_ifs <;> simp [entryId]
    | cons b t =>
      rw [hcws, hrest] at hcwsn
      dsimp only
      exact ⟨multiResult_ids_nodup _ _ _ _ _ _ hcwsn,
        multiResult_count_economic _ _ _ _ _ _,
        multiResult_count_environmental _ _ _ _ _ _,
        multiResult_count_social _ _ _ _ _ _⟩

/-- C4 (corrected): the result length is bounded by `max 3 maxResults` — the
three dimension slots ignore `maxResults`, and the single-survivor branch
always returns one entry. -/
theorem c4_result_length (product : Product) (pool : List Product)
    (criteria : SubstituteCriteria) :
    (findSmartSubstitutes product pool criteria).length ≤ max 3 criteria.maxResults := by
  simp only [findSmartSubstitutes]
  cases hcws : (pool.filter (passesFilter product criteria)).map (mkScored product) with
  | nil =>
    dsimp only
    exact multiResult_length _ _ _ _ _ _
  | cons a rest =>
    cases hrest : rest with
    | nil =>
      dsimp only
      rw [singleResult_length]
      have := le_max_left 3 criteria.maxResults
      omega
    | cons b t =>
      dsimp only
      exact multiResult_length _ _ _ _ _ _

/-- A breakdown with all three components equal. -/
def evenBreakdown (q : ℚ) : ScoreBreakdown :=
  { economic := some q, environmental := some q, social := some q }

/-- A cheese product sharing the category `queso curado`. -/
def mkQueso (i : ℤ) (bc nm : String) (t : ℚ) : Product :=
  { id := i, barcode := some bc, name := some nm, category := some "queso curado",
    price := some 10,
    sustainability_score := some { total := some t, breakdown := some (evenBreakdown t) } }

def c2OrigProduct : Product := mkQueso 1 "b1" "Queso Azul" (8/10)

def c2CandProduct : Product := mkQueso 2 "b2" "Queso Fresco" (6/10)

/-- C2 counterexample: the lone candidate scores 0.60 against the original's
0.80 — 0.20 below, far past the claimed 0.05 tolerance — yet it passes the
filter (its 0.15 category bonus lifts the adjusted score to the boundary)
and the single-survivor branch returns it. -/
theorem c2_counterexample :
    (findSmartSubstitutes c2OrigProduct [c2CandProduct] {}).map entryTotal = [3/5] ∧
    pTotal c2OrigProduct = 4/5 ∧ ¬ ((4:ℚ)/5 - 5/100 ≤ 3/5) := by
  refine ⟨?_, ?_, ?_⟩ <;>
    · apply of_decide_eq_true
      with_unfolding_all rfl

def c2Entry : SubstituteEntry :=
  ⟨mkScored c2OrigProduct c2CandProduct, "economic", "Mejor Opción Económica"⟩

theorem c2_substitute_score_floor_witness :
    0 ≤ ({} : SubstituteCriteria).minScoreImprovement ∧
    pTotal c2OrigProduct - 3/10 ≤ entryTotal c2Entry := by
  constructor
  · show (0:ℚ) ≤ 1/10
    norm_num
  · exact c2_substitute_score_floor c2OrigProduct [c2CandProduct] {}
      (by show (0:ℚ) ≤ 1/10; norm_num) c2Entry
      (by apply of_decide_eq_true; with_unfolding_all rfl)

def c3Product : Product := mkQueso 1 "b1" "Queso Azul" (5/10)

def c3CandA : Product := mkQueso 2 "b2" "Queso Uno" (9/10)

def c3CandB : Product := mkQueso 3 "b3" "Queso Dos" (8/10)

def c3CandC : Product := mkQueso 4 "b4" "Queso Tres" (7/10)

/-- C3 counterexample: one dominant candidate takes all three dimension
slots, and the backfill then labels the remaining two candidates `balanced`,
so `balanced` appears twice in one result set. -/
theorem c3_counterexample :
    ((findSmartSubstitutes c3Product [c3CandA, c3CandB, c3CandC] {}).map
      (fun e => e.recommendationType)) = ["economic", "balanced", "balanced"] ∧
    ((findSmartSubstitutes c3Product [c3CandA, c3CandB, c3CandC] {}).map
      (fun e => e.recommendationType)).count "balanced" = 2 := by
  constructor <;>
    · apply of_decide_eq_true
      with_unfolding_all rfl

theorem c3_result_dedup_witness :
    ([c3CandA, c3CandB, c3CandC].map Product.id).Nodup ∧
    ((findSmartSubstitutes c3Product [c3CandA, c3CandB, c3CandC] {}).map entryId).Nodup := by
  have h := c3_result_dedup c3Product [c3CandA, c3CandB, c3CandC] {} (by decide)
  exact ⟨by decide, h.1⟩

def c4Criteria : SubstituteCriteria := { maxResults := 0 }

/-- C4 counterexample: with `maxResults = 0` the single-survivor branch still
returns one entry, exceeding the requested bound. -/
theorem c4_counterexample :
    ¬ ((findSmartSubstitutes c2OrigProduct [c2CandProduct] c4Criteria).length ≤
      c4Criteria.maxResults) := by
  apply of_decide_eq_true
  with_unfolding_all rfl
